import Mathlib

/-! Verification development for the image2sound composition and synthesis core.
The definitions below are a shallow embedding of src/image2sound/compose.py and
src/image2sound/synth.py.  Python floats are modelled as exact rationals, the
numpy random generator is modelled as an infinite stream of draws in [0,1)
consumed in program order, and the Python while loop of the voice composer is
modelled by structural recursion on an explicit fuel that is always sufficient
(the loop advances by at least one beat per iteration). -/

namespace Image2Sound

/-- Stream-of-draws model of numpy.random.Generator: an infinite sequence of
real draws (rationals in [0,1)) together with the index of the next draw. -/
structure Rng where
  draws : Nat → ℚ
  ix : Nat

/-- One call of rng.random(): return the next draw and advance the stream. -/
def Rng.next (g : Rng) : ℚ × Rng :=
  (g.draws g.ix, ⟨g.draws, g.ix + 1⟩)

/-- One call of rng.choice(xs): consume one draw and select an element of xs. -/
def Rng.choice {α : Type} (xs : List α) (d : α) (g : Rng) : α × Rng :=
  let u := g.next
  (xs.getD (Int.toNat ⌊u.1 * xs.length⌋) d, u.2)

/-- One call of rng.uniform(a, b): consume one draw and scale it into [a,b). -/
def Rng.uniform (a b : ℚ) (g : Rng) : ℚ × Rng :=
  let u := g.next
  (a + u.1 * (b - a), u.2)

/-- All draws of the stream lie in [0,1), as numpy guarantees for random(). -/
def Rng.in_range (g : Rng) : Prop :=
  ∀ n, 0 ≤ g.draws n ∧ g.draws n < 1

/-- Modelled from the spec: the ColorCluster record of the feature extractor
(the revision of features.py under src does not declare it; its fields are
fixed by spec section 6 and by tests/test_pipeline_smoke.py). -/
structure ColorCluster where
  rgb : Nat × Nat × Nat
  hue : ℚ
  sat : ℚ
  val : ℚ
  prop : ℚ
  cx : ℚ
  cy : ℚ
deriving DecidableEq

/-- Modelled from the spec: the VoiceSpec record (spec section 3, also fixed by
tests/test_pipeline_smoke.py).  The revision of mapping.py under src does not
declare it, but compose.py imports and consumes it. -/
structure VoiceSpec where
  instrument : String
  mode_bias : ℚ
  pan : ℚ
  gain : ℚ
  octave : ℤ
  brightness : ℚ
  activity : ℚ
  color : ColorCluster
deriving DecidableEq

/-- MusicParams from mapping.py.  The voices field is modelled from the spec
(section 6) and tests/test_pipeline_smoke.py: the mapping.py revision under src
lacks it, but compose.py reads p.voices. -/
structure MusicParams where
  bpm : ℤ
  scale : String
  root : String
  instruments : List String
  intensity : ℚ
  duration : ℚ
  mode : String
  meter : Nat × Nat
  progression : List String
  pan_lead : ℚ
  lead_offset : ℤ
  voices : List VoiceSpec
deriving DecidableEq

/-- The Note dataclass of compose.py. -/
structure Note where
  start : ℚ
  dur : ℚ
  midi : ℤ
  vel : ℚ
  track : String
  pan : ℚ
deriving DecidableEq

/-- The four section names used by compose.py (there the strings A, B,
A-prime and Tutti; a closed enumeration here). -/
inductive SectionName where
  | A
  | B
  | Aprime
  | Tutti
deriving DecidableEq

/-- The Section dataclass of compose.py. -/
structure Section where
  name : SectionName
  start_beat : Nat
  end_beat : Nat
  active_voices : List Nat
  density_multiplier : ℚ
  transition : Bool
deriving DecidableEq

/-- The MODES dictionary of mapping.py, as a partial lookup. -/
def MODES (m : String) : Option (List Nat) :=
  match m with
  | "ionian" => some [0, 2, 4, 5, 7, 9, 11]
  | "dorian" => some [0, 2, 3, 5, 7, 9, 10]
  | "phrygian" => some [0, 1, 3, 5, 7, 8, 10]
  | "lydian" => some [0, 2, 4, 6, 7, 9, 11]
  | "mixolydian" => some [0, 2, 4, 5, 7, 9, 10]
  | "aeolian" => some [0, 2, 3, 5, 7, 8, 10]
  | "harm_minor" => some [0, 2, 3, 5, 7, 8, 11]
  | _ => none

/-- The 12-entry note-name list of scale_midi. -/
def note_names : List String :=
  ["C", "C#", "D", "Eb", "E", "F", "F#", "G", "Ab", "A", "Bb", "B"]

/-- scale_midi from compose.py: build a scale from a root note and a mode,
falling back to the ionian pattern for an unknown mode. -/
def scale_midi (root : String) (mode : String) : List ℤ :=
  let root_ix := note_names.indexOf root
  let pattern := (MODES mode).getD [0, 2, 4, 5, 7, 9, 11]
  pattern.map (fun semitone => (60 : ℤ) + (((root_ix + semitone) % 12 : Nat) : ℤ))

/-- apply_mode_bias from compose.py: select a scale note, with a chance of a
chromatic passing tone when the bias is strong and positive.  The random draw
is consumed only when the absolute bias exceeds 0.3 (Python short-circuit). -/
def apply_mode_bias (scale_notes : List ℤ) (mode_bias : ℚ) (beat : Nat) (g : Rng) : ℤ × Rng :=
  let base_note := scale_notes.getD (beat % scale_notes.length) 0
  if 3/10 < |mode_bias| then
    let u := g.next
    if u.1 < |mode_bias| * (1/2) then
      if 0 < mode_bias then
        let offset := Rng.choice [(-1 : ℤ), 1] (-1) u.2
        (base_note + offset.1, offset.2)
      else (base_note, u.2)
    else (base_note, u.2)
  else (base_note, g)

/-- Per-section active voices and density multiplier, keyed by section name and
voice count, from the body of create_section_structure. -/
def active_voices_for (nv : Nat) : SectionName → List Nat × ℚ
  | SectionName.A => ([0] ++ (if 3 < nv then [nv - 1] else []), 1)
  | SectionName.B => ((if 1 < nv then [1] else [0]) ++ (if 4 < nv then [nv - 2] else []), 1)
  | SectionName.Aprime => ([0] ++ (if 2 < nv then [2] else []), 6/5)
  | SectionName.Tutti => (List.range nv, 3/5)

/-- The sections_plan value of create_section_structure: section names with
their bar counts, chosen by total bar count. -/
def section_plan (total_bars : Nat) : List (SectionName × Nat) :=
  if total_bars ≤ 8 then
    if total_bars ≤ 3 then
      let a_bars := (total_bars + 1) / 2
      [(SectionName.A, a_bars), (SectionName.B, total_bars - a_bars)]
    else
      let a_bars := max 1 (total_bars / 3)
      let b_bars := max 1 (total_bars / 3)
      [(SectionName.A, a_bars), (SectionName.B, b_bars),
       (SectionName.Tutti, total_bars - a_bars - b_bars)]
  else
    let a_bars := max 2 (total_bars / 4)
    let b_bars := max 2 (total_bars / 4)
    let a_prime_bars := max 2 (total_bars / 4)
    [(SectionName.A, a_bars), (SectionName.B, b_bars),
     (SectionName.Aprime, a_prime_bars),
     (SectionName.Tutti, total_bars - a_bars - b_bars - a_prime_bars)]

/-- The section-building loop of create_section_structure: walk the plan,
carrying the current beat; a section has a trailing transition exactly when it
is not the last one. -/
def build_sections (nv : Nat) (bpb : Nat) : List (SectionName × Nat) → Nat → List Section
  | [], _ => []
  | (nm, bars) :: rest, cur =>
    let av := active_voices_for nv nm
    { name := nm
      start_beat := cur
      end_beat := cur + bars * bpb
      active_voices := av.1
      density_multiplier := av.2
      transition := !rest.isEmpty } :: build_sections nv bpb rest (cur + bars * bpb)

/-- create_section_structure from compose.py: round the requested beats up to a
whole number of bars (at least 2 bars) and build the section list. -/
def create_section_structure (voices : List VoiceSpec) (total_beats : Nat)
    (meter : Nat × Nat) : List Section × Nat :=
  let bpb := meter.1
  let total_bars := max 2 ((total_beats + bpb - 1) / bpb)
  (build_sections voices.length bpb (section_plan total_bars) 0, total_bars * bpb)

/-- The for-loop body of the fill branch of create_transition_notes: one note
per hit index, consuming one choice draw (drum voice) and one uniform draw
(stereo jitter) per hit, in that order. -/
def fill_hits_notes (start_time duration : ℚ) (fill_hits : Nat) :
    List Nat → Rng → List Note × Rng
  | [], g => ([], g)
  | i :: rest, g =>
    let m := Rng.choice [(36 : ℤ), 38, 42] 36 g
    let pv := Rng.uniform (-(3/10)) (3/10) m.2
    let ns := fill_hits_notes start_time duration fill_hits rest pv.2
    ({ start := start_time + i * duration / fill_hits
       dur := 1/10
       midi := m.1
       vel := 2/5
       track := "transition_fill"
       pan := pv.1 } :: ns.1, ns.2)

/-- create_transition_notes from compose.py: a randomly chosen swell (one
sustained note spanning the window) or fill (about four hits per second). -/
def create_transition_notes (start_time duration : ℚ) (g : Rng) : List Note × Rng :=
  let tc := Rng.choice ["swell", "fill"] "swell" g
  if tc.1 = "swell" then
    ([{ start := start_time
        dur := duration
        midi := 49
        vel := 3/10
        track := "transition_swell"
        pan := 0 }], tc.2)
  else
    let fill_hits := max 2 (Int.toNat ⌊duration * 4⌋)
    fill_hits_notes start_time duration fill_hits (List.range fill_hits) tc.2

/-- The beat step of the voice composer: max(1, int(1.0 / effective_activity)).
Python int() truncates toward zero; the argument is positive here, so this is
the floor. -/
def beat_interval_of (effective_activity : ℚ) : Nat :=
  max 1 (Int.toNat ⌊1 / effective_activity⌋)

/-- The while loop of compose_voice_track over the beats of one section, as
structural recursion on fuel.  The caller passes fuel end_beat - start_beat,
which is sufficient because the loop advances by beat_interval ≥ 1 each
iteration.  Draw order per note: mode-bias draws, duration draw, velocity
draw. -/
def voice_loop (spb : ℚ) (scale_notes : List ℤ) (mode_bias : ℚ) (base_register : ℤ)
    (register_variation : ℤ) (effective_activity : ℚ) (gain : ℚ) (sec_name : SectionName)
    (track_name : String) (pan : ℚ) (end_beat : Nat) (beat_interval : Nat) :
    Nat → Nat → Rng → List Note × Rng
  | 0, _, g => ([], g)
  | fuel + 1, beat, g =>
    if beat < end_beat then
      let mb := apply_mode_bias scale_notes mode_bias beat g
      let midi_note := mb.1 - 60 + base_register + register_variation
      let midi_clipped := min 108 (max 21 midi_note)
      let r1 := Rng.next mb.2
      let base_duration0 := spb * (4/5 + 2/5 * r1.1)
      let base_duration :=
        if 3/2 < effective_activity then base_duration0 * (7/10)
        else if effective_activity < 7/10 then base_duration0 * (7/5)
        else base_duration0
      let r2 := Rng.next r1.2
      let base_velocity0 := gain * (7/10 + 3/10 * r2.1)
      let base_velocity :=
        if sec_name = SectionName.Tutti then base_velocity0 * (4/5) else base_velocity0
      let rest := voice_loop spb scale_notes mode_bias base_register register_variation
        effective_activity gain sec_name track_name pan end_beat beat_interval
        fuel (beat + beat_interval) r2.2
      ({ start := (beat : ℚ) * spb
         dur := base_duration
         midi := midi_clipped
         vel := base_velocity
         track := track_name
         pan := pan } :: rest.1, rest.2)
    else ([], g)

/-- compose_voice_track from compose.py: compose the notes of one voice across
the sections in which it is active, threading the shared random stream. -/
def compose_voice_track (voice : VoiceSpec) (params : MusicParams) (voice_id : Nat)
    (sections : List Section) (g : Rng) : List Note × Rng :=
  let scale_notes := scale_midi params.root params.mode
  let spb := 60 / (params.bpm : ℚ)
  let base_register : ℤ := 60 + voice.octave * 12
  let track_name := "voice_" ++ toString voice_id ++ "_" ++ voice.instrument
  sections.foldl
    (fun acc sec =>
      if voice_id ∈ sec.active_voices then
        let effective_activity := voice.activity * sec.density_multiplier
        let beat_interval := beat_interval_of effective_activity
        let register_variation : ℤ := if sec.name = SectionName.Aprime then 2 else 0
        let r := voice_loop spb scale_notes voice.mode_bias base_register
          register_variation effective_activity voice.gain sec.name track_name
          voice.pan sec.end_beat beat_interval
          (sec.end_beat - sec.start_beat) sec.start_beat acc.2
        (acc.1 ++ r.1, r.2)
      else acc)
    (([] : List Note), g)

/-- Stable insertion of a note into a start-time-sorted list, placing it after
all notes with an earlier-or-equal start (the tie behavior of Python sorted). -/
def insert_by_start (n : Note) : List Note → List Note
  | [] => [n]
  | m :: rest =>
    if m.start ≤ n.start then m :: insert_by_start n rest else n :: m :: rest

/-- The final sorted(all_notes, key=start) of compose_track, as a stable
insertion sort: later list elements are inserted after earlier ones of equal
start time. -/
def sort_by_start (notes : List Note) : List Note :=
  notes.foldl (fun acc n => insert_by_start n acc) []

/-- The seed expression of compose_track:
hash(p.root + p.mode + str(p.bpm)) AND 0xFFFFFFFF, with the process-wide
Python string hash passed in as a function. -/
def compose_seed (pyHash : String → ℤ) (p : MusicParams) : Nat :=
  ((pyHash (p.root ++ p.mode ++ toString p.bpm)) % (4294967296 : ℤ)).toNat

/-- compose_track from compose.py, given the random stream: build the section
structure, compose every voice in order, append transition effects for every
section flagged with one, and sort the result by start time. -/
def compose_track (p : MusicParams) (g : Rng) : List Note :=
  let spb := 60 / (p.bpm : ℚ)
  let initial_beats := Int.toNat ⌊p.duration / spb⌋
  let sec := create_section_structure p.voices initial_beats p.meter
  let sections := sec.1
  let voices_fold := p.voices.enum.foldl
    (fun acc iv =>
      let r := compose_voice_track iv.2 p iv.1 sections acc.2
      (acc.1 ++ r.1, r.2))
    (([] : List Note), g)
  let with_transitions := sections.foldl
    (fun acc s =>
      if s.transition then
        let r := create_transition_notes ((s.end_beat : ℚ) * spb - 1/2) 1 acc.2
        (acc.1 ++ r.1, r.2)
      else acc)
    voices_fold
  sort_by_start with_transitions.1

/-- compose_track as actually invoked: the generator is freshly constructed
from the seed derived from root, mode and bpm; the stream an abstract function
of that seed. -/
def compose_track_seeded (streamOf : Nat → Nat → ℚ) (pyHash : String → ℤ)
    (p : MusicParams) : List Note :=
  compose_track p ⟨streamOf (compose_seed pyHash p), 0⟩

/-- The global peak np.max(np.abs(y)) of a stereo buffer (0 for an empty
buffer). -/
def peak_abs : List (ℚ × ℚ) → ℚ
  | [] => 0
  | s :: rest => max |s.1| (max |s.2| (peak_abs rest))

/-- The limiter of render_wav, synth.py lines 398-400: treat a zero peak as
1.0 (the Python or-expression on a falsy 0.0), then scale the whole buffer so
its peak becomes 0.98. -/
def normalize_buffer (y : List (ℚ × ℚ)) : List (ℚ × ℚ) :=
  let mx := if peak_abs y = 0 then 1 else peak_abs y
  y.map (fun s => (s.1 / mx * (49/50), s.2 / mx * (49/50)))

/-- One note accumulated into the stereo buffer: samples of the rendered
signal (synthesis, envelope, velocity and pan gains abstracted into the
render_note argument, since they involve transcendental functions) are added
into the slice starting at the note start offset.  Zero-length notes are
skipped. -/
def accum_note (render_note : Note → Nat → ℚ × ℚ) (sr : Nat) (buf : List (ℚ × ℚ))
    (n : Note) : List (ℚ × ℚ) :=
  let start := Int.toNat ⌊(sr : ℚ) * n.start⌋
  let length := Int.toNat ⌊(sr : ℚ) * n.dur⌋
  if length = 0 then buf
  else
    (List.range buf.length).zipWith
      (fun i s =>
        if start ≤ i ∧ i < start + length then
          let d := render_note n (i - start)
          (s.1 + d.1, s.2 + d.2)
        else s)
      buf

/-- render_wav from synth.py, abstracted over the per-note stereo sample
function: size the buffer to the greatest note end plus a 0.5 s tail (the max
over an empty note list raises in Python, modelled as an error), accumulate
every note, and apply the peak limiter.  File writing is outside the model. -/
def render_wav (render_note : Note → Nat → ℚ × ℚ) (notes : List Note) (sr : Nat) :
    Except String (List (ℚ × ℚ)) :=
  match (notes.map (fun n => n.start + n.dur)).max? with
  | none => Except.error "max() arg is an empty sequence"
  | some m =>
    let dur := m + 1/2
    let y0 := List.replicate (Int.toNat ⌊(sr : ℚ) * dur⌋) ((0 : ℚ), (0 : ℚ))
    let y := notes.foldl (accum_note render_note sr) y0
    Except.ok (normalize_buffer y)

/-- The mock color cluster of tests/test_pipeline_smoke.py. -/
def mock_color : ColorCluster :=
  { rgb := (200, 100, 50)
    hue := 30
    sat := 3/4
    val := 39/50
    prop := 1
    cx := 1/2
    cy := 1/2 }

/-- The mock voice of tests/test_pipeline_smoke.py. -/
def mock_voice : VoiceSpec :=
  { instrument := "pluck"
    mode_bias := 0
    pan := 0
    gain := 4/5
    octave := 0
    brightness := 7/10
    activity := 1
    color := mock_color }

/-- The MusicParams of tests/test_pipeline_smoke.py, test_compose_smoke: five
seconds at 120 BPM in C ionian, 4/4, one voice. -/
def smoke_params : MusicParams :=
  { bpm := 120
    scale := "C_major"
    root := "C"
    instruments := ["piano", "lead", "drums"]
    intensity := 7/10
    duration := 5
    mode := "ionian"
    meter := (4, 4)
    progression := ["I", "V", "vi", "IV"]
    pan_lead := 0
    lead_offset := 0
    voices := [mock_voice] }

/-- The all-zero draw stream, a concrete in-range random source. -/
def zero_rng : Rng := ⟨fun _ => 0, 0⟩

/-- The sections list tiles the half-open beat interval from a to b: the first
section starts at a, each section ends where the next one starts, and the last
section ends at b (an empty list tiles only the empty interval a = b). -/
def tiles : List Section → Nat → Nat → Prop
  | [], a, b => a = b
  | s :: rest, a, b => s.start_beat = a ∧ tiles rest s.end_beat b

/-- A concrete section with a trailing transition (the A section produced for
the smoke-test parameters). -/
def sample_section : Section :=
  { name := SectionName.A
    start_beat := 0
    end_beat := 8
    active_voices := [0]
    density_multiplier := 1
    transition := true }

/-- The swell note that create_transition_notes emits for sample_section under
the all-zero draw stream at half-second beats. -/
def swell_note : Note :=
  { start := 7/2
    dur := 1
    midi := 49
    vel := 3/10
    track := "transition_swell"
    pan := 0 }

/-- The peak of a buffer is nonnegative. -/
lemma peak_abs_nonneg (y : List (ℚ × ℚ)) : 0 ≤ peak_abs y := by
  induction y with
  | nil => simp [peak_abs]
  | cons s rest ih =>
    exact le_trans (abs_nonneg s.1) (le_max_left _ _)

/-- A buffer with zero peak is all zeros. -/
lemma peak_abs_eq_zero {y : List (ℚ × ℚ)} (h : peak_abs y = 0) :
    ∀ s ∈ y, s = (0, 0) := by
  induction y with
  | nil => simp
  | cons a rest ih =>
    have ha1 : |a.1| ≤ 0 := h ▸ le_max_left _ _
    have ha2 : |a.2| ≤ 0 := h ▸ le_trans (le_max_left _ _) (le_max_right _ _)
    have hrest : peak_abs rest = 0 :=
      le_antisymm (h ▸ le_trans (le_max_right _ _) (le_max_right _ _)) (peak_abs_nonneg rest)
    intro s hs
    rcases List.mem_cons.mp hs with rfl | hs
    · have h1 : s.1 = 0 := abs_eq_zero.mp (le_antisymm ha1 (abs_nonneg _))
      have h2 : s.2 = 0 := abs_eq_zero.mp (le_antisymm ha2 (abs_nonneg _))
      exact Prod.ext h1 h2
    · exact ih hrest s hs

/-- Scaling every sample by a nonnegative factor scales the peak by it. -/
lemma peak_abs_map_scale (k : ℚ) (hk : 0 ≤ k) (y : List (ℚ × ℚ)) :
    peak_abs (y.map (fun s => (s.1 * k, s.2 * k))) = peak_abs y * k := by
  induction y with
  | nil => simp [peak_abs]
  | cons a rest ih =>
    simp only [List.map_cons, peak_abs, ih]
    rw [abs_mul, abs_mul, abs_of_nonneg hk, max_mul_of_nonneg _ _ hk,
      max_mul_of_nonneg _ _ hk]

/-- C8: after accumulation, render_wav applies a single global peak scaling:
for any buffer with nonzero peak the scaled buffer has peak exactly 0.98 (the
float tolerance of the spec is not needed in exact arithmetic), and for an
all-zero buffer the peak is replaced by 1.0, no division by zero occurs, and
the buffer is returned unchanged (still all zeros). -/
theorem normalize_buffer_peak (y : List (ℚ × ℚ)) :
    (peak_abs y ≠ 0 → peak_abs (normalize_buffer y) = 49/50) ∧
    (peak_abs y = 0 → normalize_buffer y = y) := by
  constructor
  · intro h
    have hpos : 0 < peak_abs y := lt_of_le_of_ne (peak_abs_nonneg y) (Ne.symm h)
    have hfun : (fun s : ℚ × ℚ => (s.1 / peak_abs y * (49/50), s.2 / peak_abs y * (49/50)))
        = fun s : ℚ × ℚ => (s.1 * ((49/50) / peak_abs y), s.2 * ((49/50) / peak_abs y)) := by
      funext s
      simp only [Prod.mk.injEq]
      constructor <;> ring
    unfold normalize_buffer
    simp only [if_neg h]
    rw [hfun, peak_abs_map_scale ((49/50) / peak_abs y) (le_of_lt (div_pos (by norm_num) hpos)) y]
    rw [mul_comm]
    exact div_mul_cancel₀ _ h
  · intro h
    unfold normalize_buffer
    simp only [if_pos h]
    have hz := peak_abs_eq_zero h
    clear h
    induction y with
    | nil => rfl
    | cons a rest ih =>
      have ha := hz a (List.mem_cons_self a rest)
      rw [List.map_cons, ha, ih (fun s hs => hz s (List.mem_cons_of_mem a hs))]
      norm_num

/-- C8 witness: a one-sample buffer with value 1 is scaled to peak 0.98, and
the all-zero one-sample buffer is returned unchanged. -/
theorem normalize_buffer_peak_witness :
    peak_abs (normalize_buffer [((1 : ℚ), 0)]) = 49/50 ∧
    normalize_buffer [((0 : ℚ), (0 : ℚ))] = [((0 : ℚ), (0 : ℚ))] :=
  ⟨(normalize_buffer_peak [((1 : ℚ), 0)]).1 (by decide),
   (normalize_buffer_peak [((0 : ℚ), (0 : ℚ))]).2 (by decide)⟩

/-- Whatever the mode string, the pattern actually used by scale_midi is one of
the seven MODES patterns (an unknown mode falls back to the ionian pattern). -/
lemma modes_pattern_cases (m : String) :
    (MODES m).getD [0, 2, 4, 5, 7, 9, 11] = [0, 2, 4, 5, 7, 9, 11] ∨
    (MODES m).getD [0, 2, 4, 5, 7, 9, 11] = [0, 2, 3, 5, 7, 9, 10] ∨
    (MODES m).getD [0, 2, 4, 5, 7, 9, 11] = [0, 1, 3, 5, 7, 8, 10] ∨
    (MODES m).getD [0, 2, 4, 5, 7, 9, 11] = [0, 2, 4, 6, 7, 9, 11] ∨
    (MODES m).getD [0, 2, 4, 5, 7, 9, 11] = [0, 2, 4, 5, 7, 9, 10] ∨
    (MODES m).getD [0, 2, 4, 5, 7, 9, 11] = [0, 2, 3, 5, 7, 8, 10] ∨
    (MODES m).getD [0, 2, 4, 5, 7, 9, 11] = [0, 2, 3, 5, 7, 8, 11] := by
  unfold MODES
  split <;> simp

/-- C9: for every root in the 12-entry note-name list and every mode string
the Scale Engine returns exactly 7 pairwise-distinct pitches, each in
[60, 71]; an unknown mode name falls back to the ionian pattern; and C ionian
is the concrete major scale on middle C. -/
theorem scale_midi_spec :
    (∀ root mode, root ∈ note_names →
      (scale_midi root mode).length = 7 ∧ (scale_midi root mode).Nodup ∧
      ∀ x ∈ scale_midi root mode, 60 ≤ x ∧ x ≤ 71) ∧
    (∀ root mode, MODES mode = none → scale_midi root mode = scale_midi root "ionian") ∧
    scale_midi "C" "ionian" = [60, 62, 64, 65, 67, 69, 71] := by
  refine ⟨?_, ?_, by decide⟩
  · intro root mode hroot
    have hpat := modes_pattern_cases mode
    simp only [scale_midi]
    rcases hpat with h | h | h | h | h | h | h <;> rw [h] <;>
      fin_cases hroot <;> decide
  · intro root mode hnone
    simp only [scale_midi]
    rw [hnone]
    rfl

/-- C9 witness: the theorem instantiated at concrete roots and modes. -/
theorem scale_midi_spec_witness :
    ((scale_midi "C" "lydian").length = 7 ∧ (scale_midi "C" "lydian").Nodup ∧
      ∀ x ∈ scale_midi "C" "lydian", 60 ≤ x ∧ x ≤ 71) ∧
    scale_midi "G" "nosuchmode" = scale_midi "G" "ionian" :=
  ⟨scale_midi_spec.1 "C" "lydian" (by decide), scale_midi_spec.2.1 "G" "nosuchmode" rfl⟩

/-- C1 counterexample: the claim is false — render_wav on an empty note list
does not return a silent buffer; the max over an empty sequence fails. -/
theorem render_wav_empty_claim_false :
    ¬ ∀ (render_note : Note → Nat → ℚ × ℚ) (sr : Nat),
        ∃ buf, render_wav render_note ([] : List Note) sr = Except.ok buf ∧
          ∀ s ∈ buf, s = ((0 : ℚ), (0 : ℚ)) := by
  intro h
  obtain ⟨buf, hbuf, _⟩ := h (fun _ _ => (0, 0)) 44100
  exact absurd hbuf (by simp [render_wav])

/-- C1 amended: for an empty note list render_wav raises (the ValueError from
taking the max of an empty sequence on synth.py line 228) before any buffer is
allocated, for every render function and sample rate. -/
theorem render_wav_empty_raises (render_note : Note → Nat → ℚ × ℚ) (sr : Nat) :
    render_wav render_note ([] : List Note) sr =
      Except.error "max() arg is an empty sequence" := rfl

/-- C6 counterexample: at activity 0.55 and density multiplier 1 the code
truncates 1/0.55 to a beat step of 1, while the claimed rounding gives 2. -/
theorem beat_interval_round_claim_false :
    ¬ ((beat_interval_of ((11/20) * 1) : ℤ) =
        max 1 (round ((1 : ℚ) / ((11/20) * 1)))) := by
  have h1 : beat_interval_of ((11/20) * 1) = 1 := by
    show max 1 (Int.toNat ⌊(1 : ℚ) / ((11/20) * 1)⌋) = 1
    norm_num
  have h2 : round ((1 : ℚ) / ((11/20) * 1)) = 2 := by norm_num [round_eq]
  rw [h1, h2, max_eq_right (by norm_num : (1 : ℤ) ≤ 2)]
  norm_num

/-- C6 amended: the beat step of the voice composer is
max(1, int(1/(activity x density_multiplier))) with int truncating toward
zero (the floor here, the quotient being positive), not rounding to nearest;
in particular it is at least 1, so composition always advances. -/
theorem beat_interval_truncation (activity density_multiplier : ℚ) :
    1 ≤ beat_interval_of (activity * density_multiplier) ∧
    beat_interval_of (activity * density_multiplier) =
      max 1 (Int.toNat ⌊1 / (activity * density_multiplier)⌋) :=
  ⟨le_max_left 1 _, rfl⟩

/-- Every section built from a plan has a density multiplier in (0, 6/5]:
the four section kinds use 1, 1, 6/5 and 3/5. -/
lemma build_sections_density (nv bpb : Nat) (plan : List (SectionName × Nat)) (cur : Nat) :
    ∀ s ∈ build_sections nv bpb plan cur,
      0 < s.density_multiplier ∧ s.density_multiplier ≤ 6/5 := by
  induction plan generalizing cur with
  | nil => simp [build_sections]
  | cons hd rest ih =>
    intro s hs
    obtain ⟨nm, bars⟩ := hd
    rcases List.mem_cons.mp hs with rfl | hs
    · cases nm <;> simp [active_voices_for] <;> norm_num
    · exact ih _ s hs

/-- C7 counterexample: a 36-beat request in 4/4 yields nine bars, whose plan
contains an A-prime section with density multiplier 6/5 > 1, so not every
section has density multiplier in (0, 1]. -/
theorem density_multiplier_claim_false :
    ∃ s ∈ (create_section_structure [mock_voice] 36 (4, 4)).1,
      ¬ (s.density_multiplier ≤ 1) := by
  refine ⟨⟨SectionName.Aprime, 16, 24, [0], 6/5, true⟩, ?_, by norm_num⟩
  norm_num [create_section_structure, section_plan, build_sections, active_voices_for]

/-- C7 amended: every section produced by the Section Planner has density
multiplier in (0, 6/5] (the attained values are 1, 6/5 and 3/5); the A-prime
value 6/5 exceeds the claimed upper bound 1. -/
theorem density_multiplier_bounds (voices : List VoiceSpec) (total_beats : Nat)
    (meter : Nat × Nat) (_hm : 0 < meter.1) :
    ∀ s ∈ (create_section_structure voices total_beats meter).1,
      0 < s.density_multiplier ∧ s.density_multiplier ≤ 6/5 := by
  intro s hs
  exact build_sections_density _ _ _ _ s hs

/-- C7 witness: the bounds theorem applied to a concrete produced section. -/
theorem density_multiplier_bounds_witness :
    0 < (sample_section.density_multiplier : ℚ) ∧
      (sample_section.density_multiplier : ℚ) ≤ 6/5 :=
  density_multiplier_bounds [mock_voice] 10 (4, 4) (by decide) sample_section (by decide)

/-- Membership in a stable insertion is membership in the inserted note or in
the original list. -/
lemma mem_insert_by_start {x n : Note} {l : List Note} :
    x ∈ insert_by_start n l ↔ x = n ∨ x ∈ l := by
  induction l with
  | nil => simp [insert_by_start]
  | cons m rest ih =>
    simp only [insert_by_start]
    split
    · simp only [List.mem_cons, ih]
      tauto
    · simp only [List.mem_cons]

/-- Sorting by start time preserves membership. -/
lemma mem_sort_by_start {x : Note} {l : List Note} :
    x ∈ sort_by_start l ↔ x ∈ l := by
  have haux : ∀ (l acc : List Note),
      x ∈ l.foldl (fun acc n => insert_by_start n acc) acc ↔ x ∈ acc ∨ x ∈ l := by
    intro l
    induction l with
    | nil => simp
    | cons n rest ih =>
      intro acc
      simp only [List.foldl_cons, ih, mem_insert_by_start]
      simp
      tauto
  simpa using haux l []

/-- Advancing the stream does not change the underlying draw function. -/
lemma next_draws (g : Rng) : (Rng.next g).2.draws = g.draws := rfl

/-- The mode-bias selection does not change the underlying draw function. -/
lemma apply_mode_bias_draws (scale_notes : List ℤ) (mode_bias : ℚ) (beat : Nat) (g : Rng) :
    (apply_mode_bias scale_notes mode_bias beat g).2.draws = g.draws := by
  simp only [apply_mode_bias, Rng.choice, Rng.next]
  split_ifs <;> rfl

/-- The voice loop does not change the underlying draw function. -/
lemma voice_loop_draws (spb : ℚ) (scale_notes : List ℤ) (mode_bias : ℚ)
    (base_register register_variation : ℤ) (effective_activity gain : ℚ)
    (sec_name : SectionName) (track_name : String) (pan : ℚ)
    (end_beat beat_interval : Nat) :
    ∀ (fuel beat : Nat) (g : Rng),
      (voice_loop spb scale_notes mode_bias base_register register_variation
        effective_activity gain sec_name track_name pan end_beat beat_interval
        fuel beat g).2.draws = g.draws := by
  intro fuel
  induction fuel with
  | zero => intro beat g; rfl
  | succ f ih =>
    intro beat g
    show (voice_loop _ _ _ _ _ _ _ _ _ _ _ _ (f + 1) beat g).2.draws = g.draws
    rw [voice_loop]
    split
    · simp only []
      rw [ih]
      rw [next_draws, next_draws, apply_mode_bias_draws]
    · rfl

/-- With beat step 1, the voice loop emits, for every beat b of the section,
a note starting exactly at b multiplied by the seconds per beat, whose
duration is at least 14/25 of a beat (the duration draw scales the beat by at
least 4/5, and the activity-based rescale by at least 7/10), for any in-range
draw stream. -/
lemma voice_loop_mem_beat (spb : ℚ) (scale_notes : List ℤ) (mode_bias : ℚ)
    (base_register register_variation : ℤ) (effective_activity gain : ℚ)
    (sec_name : SectionName) (track_name : String) (pan : ℚ) (end_beat : Nat)
    (hspb : 0 < spb) (b : Nat) :
    ∀ (fuel beat : Nat) (g : Rng), (∀ j, 0 ≤ g.draws j) →
      beat ≤ b → b < end_beat → end_beat ≤ beat + fuel →
      ∃ n ∈ (voice_loop spb scale_notes mode_bias base_register register_variation
          effective_activity gain sec_name track_name pan end_beat 1 fuel beat g).1,
        n.start = (b : ℚ) * spb ∧ 14/25 * spb ≤ n.dur := by
  intro fuel
  induction fuel with
  | zero =>
    intro beat g _ hb1 hb2 hb3
    omega
  | succ f ih =>
    intro beat g hg hb1 hb2 hb3
    have hlt : beat < end_beat := lt_of_le_of_lt hb1 hb2
    rw [voice_loop, if_pos hlt]
    simp only []
    rcases eq_or_lt_of_le hb1 with rfl | hbeat
    · refine ⟨_, List.mem_cons_self _ _, rfl, ?_⟩
      have hu : 0 ≤ ((apply_mode_bias scale_notes mode_bias beat g).2.next).1 := by
        show 0 ≤ (apply_mode_bias scale_notes mode_bias beat g).2.draws _
        rw [apply_mode_bias_draws]
        exact hg _
      have hbd : spb * (4/5) ≤
          spb * (4/5 + 2/5 * ((apply_mode_bias scale_notes mode_bias beat g).2.next).1) := by
        have : (4/5 : ℚ) ≤ 4/5 + 2/5 * ((apply_mode_bias scale_notes mode_bias beat g).2.next).1 := by
          nlinarith
        nlinarith
      split_ifs <;> nlinarith
    · have hg2 : ∀ j, 0 ≤ ((((apply_mode_bias scale_notes mode_bias beat g).2.next).2.next).2).draws j := by
        intro j
        rw [next_draws, next_draws, apply_mode_bias_draws]
        exact hg j
      obtain ⟨n, hn, hns, hnd⟩ := ih (beat + 1) _ hg2 hbeat hb2 (by omega)
      exact ⟨n, List.mem_cons_of_mem _ hn, hns, hnd⟩

/-- C2 (code bug): on the exact parameters of the repository smoke test
(tests/test_pipeline_smoke.py, test_compose_smoke: 5 s at 120 BPM, 4/4, one
voice with activity 1), compose_track emits a note starting at beat 11
(5.5 s, because 10 requested beats are rounded up to 3 bars = 12 beats) whose
end exceeds duration + 0.5 s, contradicting the assertion of that test. -/
theorem compose_track_test_duration_overrun :
    ∃ n ∈ compose_track smoke_params zero_rng,
      smoke_params.duration + 1/2 < n.start + n.dur := by
  have hbeats : Int.toNat ⌊smoke_params.duration / (60 / (smoke_params.bpm : ℚ))⌋ = 10 := by
    show Int.toNat ⌊(5 : ℚ) / (60 / ((120 : ℤ) : ℚ))⌋ = 10
    norm_num
    rfl
  have h_sec : create_section_structure smoke_params.voices 10 smoke_params.meter =
      ([⟨SectionName.A, 0, 8, [0], 1, true⟩, ⟨SectionName.B, 8, 12, [0], 1, false⟩], 12) := rfl
  have hbi1 : beat_interval_of ((1 : ℚ) * 1) = 1 := by
    show max 1 (Int.toNat ⌊(1 : ℚ) / ((1 : ℚ) * 1)⌋) = 1
    norm_num
  simp only [compose_track, hbeats, h_sec]
  have hv : smoke_params.voices.enum = [(0, mock_voice)] := rfl
  simp only [hv, List.foldl_cons, List.foldl_nil, compose_voice_track, mock_voice,
    List.mem_singleton, List.mem_cons, List.not_mem_nil, or_false, if_true, reduceIte,
    one_mul, mul_one, hbi1]
  have hbi : beat_interval_of (1 : ℚ) = 1 := by
    show max 1 (Int.toNat ⌊(1 : ℚ) / 1⌋) = 1
    norm_num
  simp [hbi]
  have hspb : (0 : ℚ) < 60 / (smoke_params.bpm : ℚ) := by norm_num [smoke_params]
  have hgA : ∀ j, (0 : ℚ) ≤ ((voice_loop (60 / (smoke_params.bpm : ℚ))
      (scale_midi smoke_params.root smoke_params.mode) 0 60 0 1 (4/5) SectionName.A
      ("voice_" ++ toString 0 ++ "_" ++ "pluck") 0 8 1 8 0 zero_rng).2).draws j := by
    intro j
    rw [voice_loop_draws]
    exact le_refl 0
  obtain ⟨n, hn, hns, hnd⟩ := voice_loop_mem_beat (60 / (smoke_params.bpm : ℚ))
    (scale_midi smoke_params.root smoke_params.mode) 0 60 0 1 (4/5) SectionName.B
    ("voice_" ++ toString 0 ++ "_" ++ "pluck") 0 12 hspb 11 4 8
    ((voice_loop (60 / (smoke_params.bpm : ℚ)) (scale_midi smoke_params.root smoke_params.mode)
      0 60 0 1 (4/5) SectionName.A ("voice_" ++ toString 0 ++ "_" ++ "pluck") 0 8 1 8 0
      zero_rng).2)
    hgA (by norm_num) (by norm_num) (by norm_num)
  refine ⟨n, mem_sort_by_start.mpr ?_, ?_⟩
  · simp [hn]
  · have hsp : (60 : ℚ) / (smoke_params.bpm : ℚ) = 1/2 := by norm_num [smoke_params]
    rw [hns]
    rw [hsp] at hnd ⊢
    have hd : smoke_params.duration = 5 := rfl
    rw [hd]
    push_cast
    linarith

/-- The composed notes of one voice depend on the music parameters only
through root, mode and bpm (beyond the voice, sections and stream). -/
lemma compose_voice_track_congr (v : VoiceSpec) (p q : MusicParams) (i : Nat)
    (s : List Section) (g : Rng) (hroot : p.root = q.root) (hmode : p.mode = q.mode)
    (hbpm : p.bpm = q.bpm) :
    compose_voice_track v p i s g = compose_voice_track v q i s g := by
  simp only [compose_voice_track, hroot, hmode, hbpm]

/-- C3: two runs of compose_track on identical parameters (same root, mode,
bpm, duration, meter and voices — the only fields the composer reads), each
constructing its generator from the root-mode-bpm seed under the same process
hash and the same seed-to-stream map, produce identical note sequences. -/
theorem compose_track_seeded_deterministic (streamOf : Nat → Nat → ℚ)
    (pyHash : String → ℤ) (p q : MusicParams) (hroot : p.root = q.root)
    (hmode : p.mode = q.mode) (hbpm : p.bpm = q.bpm) (hdur : p.duration = q.duration)
    (hmeter : p.meter = q.meter) (hvoices : p.voices = q.voices) :
    compose_track_seeded streamOf pyHash p = compose_track_seeded streamOf pyHash q := by
  have hseed : compose_seed pyHash p = compose_seed pyHash q := by
    simp only [compose_seed, hroot, hmode, hbpm]
  have hvt : ∀ v i s g, compose_voice_track v p i s g = compose_voice_track v q i s g :=
    fun v i s g => compose_voice_track_congr v p q i s g hroot hmode hbpm
  simp only [compose_track_seeded, hseed, compose_track, hbpm, hdur, hmeter, hvoices, hvt]

/-- C3 witness: the determinism theorem applied at the smoke-test parameters
with a concrete stream map and hash. -/
theorem compose_track_seeded_deterministic_witness :
    compose_track_seeded (fun _ _ => 0) (fun _ => 0) smoke_params =
      compose_track_seeded (fun _ _ => 0) (fun _ => 0) smoke_params :=
  compose_track_seeded_deterministic (fun _ _ => 0) (fun _ => 0) smoke_params smoke_params
    rfl rfl rfl rfl rfl rfl

/-- C10: the composition seed is built only from root, mode and bpm, so for
any two parameter records agreeing on those three fields the seed and hence
every draw of the derived stream coincide; no other field (duration, meter,
voices, progression, or the image seed) influences the stream. -/
theorem compose_seed_only_root_mode_bpm (streamOf : Nat → Nat → ℚ)
    (pyHash : String → ℤ) (p q : MusicParams) (hroot : p.root = q.root)
    (hmode : p.mode = q.mode) (hbpm : p.bpm = q.bpm) :
    compose_seed pyHash p = compose_seed pyHash q ∧
    ∀ k, streamOf (compose_seed pyHash p) k = streamOf (compose_seed pyHash q) k := by
  have h : compose_seed pyHash p = compose_seed pyHash q := by
    simp only [compose_seed, hroot, hmode, hbpm]
  exact ⟨h, fun k => by rw [h]⟩

/-- C10 witness: the seed theorem applied to two parameter records that agree
on root, mode and bpm but differ in duration. -/
theorem compose_seed_only_root_mode_bpm_witness :
    compose_seed (fun _ => 0) smoke_params =
        compose_seed (fun _ => 0) { smoke_params with duration := 7 } ∧
      ∀ _k : Nat, (0 : ℚ) = 0 :=
  compose_seed_only_root_mode_bpm (fun _ _ => 0) (fun _ => 0) smoke_params
    { smoke_params with duration := 7 } rfl rfl rfl

/-- Every note of the fill branch starts at its hit offset within the window
and lasts a tenth of a second. -/
lemma fill_hits_notes_mem (st dur : ℚ) (fh : Nat) :
    ∀ (is : List Nat) (g : Rng), ∀ n ∈ (fill_hits_notes st dur fh is g).1,
      ∃ i ∈ is, n.start = st + i * dur / fh ∧ n.dur = 1/10 := by
  intro is
  induction is with
  | nil =>
    intro g n hn
    simp [fill_hits_notes] at hn
  | cons i rest ih =>
    intro g n hn
    simp only [fill_hits_notes] at hn
    rcases List.mem_cons.mp hn with rfl | hn
    · exact ⟨i, List.mem_cons_self _ _, rfl, rfl⟩
    · obtain ⟨j, hj, h1, h2⟩ := ih _ n hn
      exact ⟨j, List.mem_cons_of_mem _ hj, h1, h2⟩

/-- Both transition kinds (swell and fill) emit notes lying inside the
one-second window starting at the given start time. -/
lemma create_transition_notes_window (st : ℚ) (g : Rng) :
    ∀ n ∈ (create_transition_notes st 1 g).1,
      st ≤ n.start ∧ n.start + n.dur ≤ st + 1 := by
  intro n hn
  simp only [create_transition_notes] at hn
  split at hn
  · rw [List.mem_singleton] at hn
    subst hn
    exact ⟨le_refl _, by norm_num⟩
  · have hfh : max 2 (Int.toNat ⌊(1 : ℚ) * 4⌋) = 4 := by
      norm_num
      rfl
    rw [hfh] at hn
    obtain ⟨i, hi, h1, h2⟩ := fill_hits_notes_mem st 1 4 (List.range 4) _ n hn
    rw [List.mem_range] at hi
    have hi3 : (i : ℚ) ≤ 3 := by exact_mod_cast Nat.lt_succ_iff.mp hi
    have hi0 : (0 : ℚ) ≤ (i : ℚ) := by positivity
    constructor
    · rw [h1]
      nlinarith
    · rw [h1, h2]
      nlinarith

/-- Under the all-zero draw stream the transition for the sample section is
the single swell note. -/
lemma swell_note_mem :
    swell_note ∈
      (create_transition_notes ((sample_section.end_beat : ℚ) * (1/2) - 1/2) 1 zero_rng).1 := by
  simp only [create_transition_notes, Rng.choice, Rng.next, zero_rng]
  norm_num [swell_note, sample_section, List.getD]

/-- C5 counterexample: the claim is false — the emitted transition window does
not end 0.5 s before the section boundary.  For the sample section ending at
beat 8 with half-second beats, the swell note runs from 3.5 s to 4.5 s, past
the claimed upper limit of 3.5 s (= boundary minus 0.5 s). -/
theorem transition_window_claim_false :
    ¬ ∀ (sec : Section) (spb : ℚ) (g : Rng), Rng.in_range g → sec.transition = true →
        ∀ n ∈ (create_transition_notes ((sec.end_beat : ℚ) * spb - 1/2) 1 g).1,
          (sec.end_beat : ℚ) * spb - 3/2 ≤ n.start ∧
          n.start + n.dur ≤ (sec.end_beat : ℚ) * spb - 1/2 := by
  intro h
  have hin : Rng.in_range zero_rng := fun n => ⟨le_refl 0, show (0 : ℚ) < 1 by norm_num⟩
  have h2 := (h sample_section (1/2) zero_rng hin rfl swell_note swell_note_mem).2
  norm_num [swell_note, sample_section] at h2

/-- C5 amended: the transition notes of a flagged section span the fixed
one-second window that STARTS 0.5 s before the section boundary (the code
sets transition_start = end_beat x spb - 0.5 and duration 1.0), so each such
note n satisfies end x spb - 0.5 ≤ n.start and n.start + n.dur ≤
end x spb + 0.5. -/
theorem transition_window_amended (sec : Section) (spb : ℚ) (g : Rng)
    (_ht : sec.transition = true) :
    ∀ n ∈ (create_transition_notes ((sec.end_beat : ℚ) * spb - 1/2) 1 g).1,
      (sec.end_beat : ℚ) * spb - 1/2 ≤ n.start ∧
      n.start + n.dur ≤ (sec.end_beat : ℚ) * spb + 1/2 := by
  intro n hn
  obtain ⟨h1, h2⟩ := create_transition_notes_window ((sec.end_beat : ℚ) * spb - 1/2) g n hn
  exact ⟨h1, by linarith⟩

/-- C5 witness: the amended window bounds at the sample section and the swell
note it produces under the all-zero stream. -/
theorem transition_window_amended_witness :
    (sample_section.end_beat : ℚ) * (1/2) - 1/2 ≤ swell_note.start ∧
      swell_note.start + swell_note.dur ≤ (sample_section.end_beat : ℚ) * (1/2) + 1/2 :=
  transition_window_amended sample_section (1/2) zero_rng rfl swell_note swell_note_mem

/-- The bar counts of every section plan sum to the total bar count. -/
lemma section_plan_sum (tb : Nat) (h2 : 2 ≤ tb) :
    ((section_plan tb).map Prod.snd).sum = tb := by
  unfold section_plan
  split
  · split
    · simp
      omega
    · simp
      omega
  · simp
    omega

/-- Sections built from a plan tile the beat interval from the current beat to
the current beat plus the planned bars times the bar length. -/
lemma build_sections_tiles (nv bpb : Nat) :
    ∀ (plan : List (SectionName × Nat)) (cur : Nat),
      tiles (build_sections nv bpb plan cur) cur (cur + ((plan.map Prod.snd).sum) * bpb) := by
  intro plan
  induction plan with
  | nil =>
    intro cur
    simp [build_sections, tiles]
  | cons hd rest ih =>
    intro cur
    obtain ⟨nm, bars⟩ := hd
    simp only [build_sections, tiles, List.map_cons, List.sum_cons]
    refine ⟨by trivial, ?_⟩
    have h := ih (cur + bars * bpb)
    have harith : cur + bars * bpb + (rest.map Prod.snd).sum * bpb
        = cur + (bars + (rest.map Prod.snd).sum) * bpb := by ring
    rw [harith] at h
    exact h

/-- C4: for every voice list, requested beat count and meter (with a positive
bar length, as Python division requires), the Section Planner returns a
nonempty section list exactly tiling [0, total): the first section starts at
beat 0, each section ends where the next starts, the last ends at the
returned total, and the total is the requested beat count rounded up to a
whole number of bars with a minimum of 2 bars (a bar multiple that is at
least the request and at least 2 bars). -/
theorem create_section_structure_tiles (voices : List VoiceSpec) (total_beats : Nat)
    (meter : Nat × Nat) (hm : 0 < meter.1) :
    (create_section_structure voices total_beats meter).1 ≠ [] ∧
    tiles (create_section_structure voices total_beats meter).1 0
      (create_section_structure voices total_beats meter).2 ∧
    (create_section_structure voices total_beats meter).2 =
      max 2 ((total_beats + meter.1 - 1) / meter.1) * meter.1 ∧
    meter.1 ∣ (create_section_structure voices total_beats meter).2 ∧
    total_beats ≤ (create_section_structure voices total_beats meter).2 ∧
    2 * meter.1 ≤ (create_section_structure voices total_beats meter).2 := by
  simp only [create_section_structure]
  refine ⟨?_, ?_, by trivial,
    ⟨max 2 ((total_beats + meter.1 - 1) / meter.1), mul_comm _ _⟩, ?_, ?_⟩
  · have hne : ∀ (p : SectionName × Nat) (ps : List (SectionName × Nat)) (cur : Nat),
        build_sections voices.length meter.1 (p :: ps) cur ≠ [] := by
      intro p ps cur
      obtain ⟨nm, bars⟩ := p
      simp [build_sections]
    unfold section_plan
    split
    · split
      · exact hne _ _ _
      · exact hne _ _ _
    · exact hne _ _ _
  · have h := build_sections_tiles voices.length meter.1
      (section_plan (max 2 ((total_beats + meter.1 - 1) / meter.1))) 0
    rw [section_plan_sum _ (le_max_left _ _)] at h
    simpa using h
  · have hqb : total_beats ≤ ((total_beats + meter.1 - 1) / meter.1) * meter.1 := by
      by_contra hcon
      push_neg at hcon
      have h1 : ((total_beats + meter.1 - 1) / meter.1 + 1) * meter.1 ≤
          total_beats + meter.1 - 1 := by
        rw [add_mul, one_mul]
        omega
      have h3 := (Nat.le_div_iff_mul_le hm).mpr h1
      omega
    calc total_beats ≤ ((total_beats + meter.1 - 1) / meter.1) * meter.1 := hqb
      _ ≤ max 2 ((total_beats + meter.1 - 1) / meter.1) * meter.1 :=
        Nat.mul_le_mul_right _ (le_max_right _ _)
  · exact Nat.mul_le_mul_right _ (le_max_left _ _)

/-- C4 witness: the tiling theorem at ten requested beats of 4/4 with no
voices (ten beats round up to three 4-beat bars). -/
theorem create_section_structure_tiles_witness :
    (create_section_structure [] 10 (4, 4)).1 ≠ [] ∧
    tiles (create_section_structure [] 10 (4, 4)).1 0
      (create_section_structure [] 10 (4, 4)).2 ∧
    (create_section_structure [] 10 (4, 4)).2 =
      max 2 ((10 + (4, 4).1 - 1) / (4, 4).1) * (4, 4).1 ∧
    (4, 4).1 ∣ (create_section_structure [] 10 (4, 4)).2 ∧
    10 ≤ (create_section_structure [] 10 (4, 4)).2 ∧
    2 * (4, 4).1 ≤ (create_section_structure [] 10 (4, 4)).2 :=
  create_section_structure_tiles [] 10 (4, 4) (by decide)
